import Mathlib

/-!
# Verification of the Janus Faraday-cup analysis core (`janus_core.py`)

This file gives a shallow embedding of the parts of the `core` class of
`janus_core.py` that the frozen claims are about, and proves (or refutes)
each claim against that embedding.

Conventions of the embedding:

* numpy boolean arrays indexed `[alt, azm]` or `[alt, azm, vel]` become total
  functions `Nat → Nat → Bool` / `Nat → Nat → Nat → Bool` together with the
  explicit dimensions `n_alt`, `n_azm`, `n_vel` carried in the state; entries
  outside the declared grid carry the array's fill value and are never read
  by the embedded code on the executions the claims describe.
* floating-point currents, velocities and thresholds become exact rationals
  (`ℚ`); the two places the claims are about (comparisons against
  `cur_min` / `cur_jmp`, and window-sum ranking) use only `+`, `*`, `<`, so
  the rational model agrees with the float code away from rounding.
* the real-valued thermal-speed projection (claim about `auto_nln_sel` vs
  `calc_cur_bmx`) uses `ℝ` with `Real.sin`, `Real.cos`, `Real.sqrt`.
* Qt signals emitted with `self.emit(...)` are accumulated in an `emits`
  list carried by the state.
* calls into parts of the program that a claim does not constrain (the body
  of the moments computation past its guard, the scipy optimizer, the rerun
  dispatch of `chng_dyn`) are taken as explicit function parameters, so the
  theorems quantify over every possible behaviour of those parts.
-/

namespace Janus

/-- A Qt signal, as emitted by `self.emit( SIGNAL('janus_...') , ... )`. -/
inductive Sig where
  | mesg (src typ obj : String)
  | chng_mom_sel_cur (t p v : Nat)
  | chng_mom_sel_azm (t p : Nat)
  | chng_mom_sel_all
  | chng_mom_res
  | chng_nln_sel_cur (t p v : Nat)
  | chng_nln_sel_all
  | chng_nln_res
  | chng_dyn
  | chng_dsp
  deriving DecidableEq, Repr

/-- A boolean mask over look directions (`[alt, azm]`). -/
abbrev Mask2 := Nat → Nat → Bool

/-- A boolean mask over data (`[alt, azm, vel]`). -/
abbrev Mask3 := Nat → Nat → Nat → Bool

/-- A rational-valued data cube (`[alt, azm, vel]`). -/
abbrev Arr3 := Nat → Nat → Nat → ℚ

/-- `len( where( arr )[0] )` for a 1-D boolean array of length `n`. -/
def countP (n : Nat) (f : Nat → Bool) : Nat :=
  ((List.range n).filter f).length

/-- `len( where( arr )[0] )` for an `[n_alt, n_azm]` boolean array. -/
def count2 (na np : Nat) (f : Mask2) : Nat :=
  ((List.range na).map (fun t => countP np (f t))).sum

/-- `len( where( arr )[0] )` for an `[n_alt, n_azm, n_vel]` boolean array. -/
def count3 (na np nv : Nat) (f : Mask3) : Nat :=
  ((List.range na).map (fun t => count2 np nv (f t))).sum

/-- The index pairs at which two `[n_alt, n_azm]` boolean arrays differ
(`where( new != old )`, in row-major order as numpy returns them). -/
def changed_pairs (na np : Nat) (new old : Mask2) : List (Nat × Nat) :=
  (List.range na).foldr
    (fun t acc =>
      (((List.range np).filter (fun p => new t p != old t p)).map
        (fun p => (t, p))) ++ acc)
    []

/-- The moments-analysis result variables, as reset by
`rset_var( var_mom_res=True )` (`janus_core.py` lines 344–372).  The claims
only compare these against their reset values, so the payloads of the
populated arrays are kept abstract as lists/tuples of rationals. -/
structure MomRes where
  mom_n_eta : Nat
  mom_eta_ind_t : Option (List Nat)
  mom_eta_ind_p : Option (List Nat)
  mom_eta_n : Option (List ℚ)
  mom_eta_v : Option (List ℚ)
  mom_eta_w : Option (List ℚ)
  mom_eta_t : Option (List ℚ)
  mom_corr_pears : Option ℚ
  mom_corr_spear : Option ℚ
  mom_n : Option ℚ
  mom_v : Option ℚ
  mom_w : Option ℚ
  mom_t : Option ℚ
  mom_r : Option ℚ
  mom_v_vec : Option (ℚ × ℚ × ℚ)
  mom_w_per : Option ℚ
  mom_w_par : Option ℚ
  mom_t_per : Option ℚ
  mom_t_par : Option ℚ
  mom_cur : Option (List ℚ)

/-- The value `rset_var( var_mom_res=True )` assigns: counter zero and every
array/result `None`. -/
def MomRes.empty : MomRes :=
  ⟨0, none, none, none, none, none, none, none, none, none, none,
   none, none, none, none, none, none, none, none, none⟩

/-- Modelled from the spec: the `plas` record of the external `janus_pyon`
module (not under `src/`), used for the fit result (§3 "Fit result": best-fit
parameter vector with covariance, decomposed per population).  Only its
freshly-constructed value `plas( enforce=... )` matters to the claims, so the
record keeps the covariance, timestamp and per-population parameter lists and
nothing more. -/
structure Plas where
  enforce : Bool
  time : Option ℚ
  covar : Option (List (List ℚ))
  pops : List (List (Option ℚ))
  deriving DecidableEq, Repr

/-- A freshly constructed `plas( enforce=e )`: no time, no covariance, no
populations. -/
def Plas.new (e : Bool) : Plas := ⟨e, none, none, []⟩

/-- The mutable state of the `core` object, restricted to the fields the
claims are about.  `mom_sel_init` / `nln_sel_init` record whether the
corresponding selection arrays are populated (`False` models the Python
value `None`). -/
structure Core where
  time_epc : Option ℚ
  n_alt : Nat
  n_azm : Nat
  n_vel : Nat
  cur : Arr3
  cur_vld : Mask3
  cur_min : ℚ
  cur_jmp : ℚ
  mom_win_azm : Nat
  mom_win_cur : Nat
  mom_win_azm_req : Option Nat
  mom_win_cur_req : Option Nat
  mom_min_sel_azm : Nat
  mom_min_sel_cur : Nat
  mom_sel_init : Bool
  mom_sel_azm : Mask2
  mom_sel_cur : Mask3
  mom_n_sel_azm : Nat
  mom_n_sel_cur : Nat → Nat → Nat
  mom_res : MomRes
  n_mfi : Nat
  nln_gss_pop : List Nat
  nln_gss_prm : List ℚ
  nln_sel_init : Bool
  nln_sel : Mask3
  nln_n_sel : Nat
  nln_min_sel : Nat
  nln_res_plas : Plas
  nln_res_sel : Option Mask3
  nln_res_cur_tot : Option (List ℚ)
  nln_res_cur_ion : Option (List (List ℚ))
  series : List Plas
  dsp : Option String
  dyn_mom : Bool
  dyn_gss : Bool
  dyn_sel : Bool
  dyn_nln : Bool
  emits : List Sig

/-- `rset_var( var_mom_res=True )` (lines 344–372). -/
def rset_mom_res (s : Core) : Core :=
  { s with mom_res := MomRes.empty }

/-- `rset_var( var_nln_sel=True )` (lines 509–514): `nln_sel = None`,
`nln_n_sel = 0`, `nln_min_sel = 30`. -/
def rset_nln_sel (s : Core) : Core :=
  { s with nln_sel_init := false, nln_sel := fun _ _ _ => false,
           nln_n_sel := 0, nln_min_sel := 30 }

/-- `rset_var( var_nln_res=True )` (lines 519–526): a fresh
`plas( enforce=False )` and `None` for the saved selection and the modeled
currents. -/
def rset_nln_res (s : Core) : Core :=
  { s with nln_res_plas := Plas.new false, nln_res_sel := none,
           nln_res_cur_tot := none, nln_res_cur_ion := none }

/-! ## `vldt_mom_sel` (lines 1612–1680) -/

/-- The refreshed counter `mom_n_sel_cur[t,p]`: the number of selected data
in each pointing direction (lines 1636–1639). -/
def vldt_n_sel_cur (s : Core) : Nat → Nat → Nat :=
  fun t p => countP s.n_vel (s.mom_sel_cur t p)

/-- The refreshed direction mask before the global-minimum override:
`mom_n_sel_cur[t,p] >= mom_min_sel_cur` (lines 1645–1648). -/
def vldt_sel_azm (s : Core) : Mask2 :=
  fun t p => decide (s.mom_min_sel_cur ≤ vldt_n_sel_cur s t p)

/-- The direction mask after the global-minimum override of lines
1653–1664: all `False` when fewer than `mom_min_sel_azm` directions
qualify, otherwise the rebuilt mask. -/
def vldt_new_azm (s : Core) : Mask2 :=
  if count2 s.n_alt s.n_azm (vldt_sel_azm s) < s.mom_min_sel_azm then
    fun _ _ => false
  else vldt_sel_azm s

/-- The counter `mom_n_sel_azm` after the same override. -/
def vldt_new_n (s : Core) : Nat :=
  if count2 s.n_alt s.n_azm (vldt_sel_azm s) < s.mom_min_sel_azm then 0
  else count2 s.n_alt s.n_azm (vldt_sel_azm s)

/-- `vldt_mom_sel` (lines 1612–1680): refresh `mom_n_sel_cur`, rebuild
`mom_sel_azm` from the per-direction counts (deselecting everything if
fewer than `mom_min_sel_azm` directions qualify), and emit one
`chng_mom_sel_azm` signal per direction whose selection status changed
(comparison of the post-override mask against the saved
`old_mom_sel_azm`). -/
def vldt_mom_sel (s : Core) : Core :=
  { s with mom_n_sel_cur := vldt_n_sel_cur s,
           mom_sel_azm := vldt_new_azm s,
           mom_n_sel_azm := vldt_new_n s,
           emits := s.emits ++
             (changed_pairs s.n_alt s.n_azm (vldt_new_azm s)
                 s.mom_sel_azm).map (fun q => Sig.chng_mom_sel_azm q.1 q.2) }

/-! ## Automatic selection for the moments analysis (lines 1291–1567) -/

/-- `max( lst )` of a Python list of rationals (only ever applied to
non-empty lists by the embedded code; `0` on `[]` keeps the function
total). -/
def list_max : List ℚ → ℚ
  | [] => 0
  | x :: xs => xs.foldl max x

/-- `max_cur[t,p]` (lines 1441–1450): the largest valid current in look
direction `(t,p)`, or `0.` if the direction has no valid datum. -/
def max_cur (s : Core) (t p : Nat) : ℚ :=
  let tk := (List.range s.n_vel).filter (fun v => s.cur_vld t p v)
  if 0 < tk.length then list_max (tk.map (s.cur t p)) else 0

/-- `mm_cur[t,p]` (lines 1455–1462): the sum of `max_cur` over the circular
azimuth window of `mom_win_azm` directions starting at `p`. -/
def mm_cur (s : Core) (t p : Nat) : ℚ :=
  ((List.range s.mom_win_azm).map
    (fun w => max_cur s t ((p + w) % s.n_azm))).sum

/-- `p0` for row `t` (lines 1471–1472): the first azimuth index achieving
the row maximum of `mm_cur` (`where( mm_cur[t,:] == amax( mm_cur[t,:] ) )
[0][0]`). -/
def azm_p0 (s : Core) (t : Nat) : Nat :=
  let row := (List.range s.n_azm).map (mm_cur s t)
  (((List.range s.n_azm).filter
      (fun p => mm_cur s t p == list_max row)).head?).getD 0

/-- `auto_mom_sel_azm` (lines 1406–1481): deselect all directions, then for
each altitude row select the circular window of `mom_win_azm` azimuths
starting at `p0`, and record the count. -/
def auto_mom_sel_azm (s : Core) : Core :=
  let sel : Mask2 := fun t p =>
    decide (t < s.n_alt) && decide (p < s.n_azm) &&
      (List.range s.mom_win_azm).any
        (fun w => (azm_p0 s t + w) % s.n_azm == p)
  { s with mom_sel_init := true,
           mom_sel_azm := sel,
           mom_n_sel_azm := count2 s.n_alt s.n_azm sel }

/-- The summed valid current of the span `[v, v + win)` of direction data
(lines 1543–1551).  The source guards with `if ( len( tk ) > 0 )`, but `tk`
there is the 1-tuple returned by `where`, whose length is always `1`, so the
`else` branch is dead; the sum over an empty pick is `0.` anyway. -/
def mom_win_sum (n_vel win : Nat) (cur : Nat → ℚ) (vld : Nat → Bool)
    (v : Nat) : ℚ :=
  (((List.range n_vel).filter
      (fun u => decide (v ≤ u) && decide (u < v + win) && vld u)).map
    cur).sum

/-- The accumulator loop of lines 1538–1555: starting from
`( v_0, cur_0 ) = ( 0, 0. )`, scan `v` over `range( n_vel - win )` and keep
the first span whose summed valid current strictly exceeds the best so
far. -/
def mom_best_v0 (n_vel win : Nat) (cur : Nat → ℚ) (vld : Nat → Bool) : Nat :=
  ((List.range (n_vel - win)).foldl
    (fun acc v =>
      let cur_v := mom_win_sum n_vel win cur vld v
      if acc.2 < cur_v then (v, cur_v) else acc)
    ((0 : Nat), (0 : ℚ))).1

/-- `auto_mom_sel_cur` (lines 1488–1566): deselect all data; for each
selected look direction select the whole span
`v_0 : v_0 + mom_win_cur` found by `mom_best_v0`; record the per-direction
counts. -/
def auto_mom_sel_cur (s : Core) : Core :=
  let sel : Mask3 := fun t p v =>
    decide (t < s.n_alt) && decide (p < s.n_azm) && s.mom_sel_azm t p &&
      (let v0 := mom_best_v0 s.n_vel s.mom_win_cur (s.cur t p) (s.cur_vld t p)
       decide (v0 ≤ v) && decide (v < v0 + s.mom_win_cur) &&
         decide (v < s.n_vel))
  { s with mom_sel_cur := sel,
           mom_n_sel_cur := fun t p => countP s.n_vel (sel t p) }

/-- The head of `auto_mom_sel` (lines 1291–1362) with no `win_???` keyword
arguments: reset the non-linear selection, adopt any previously requested
window sizes, and clamp both windows to
`[mom_min_sel_???, n_azm / n_vel]`.  (Window requests are Python ints; a
negative request behaves exactly like `0` under the `max`-clamp, so `Nat`
requests lose no behaviour.) -/
def auto_mom_sel_clamp (s : Core) : Core :=
  let s1 := rset_nln_sel s
  let s2 := { s1 with
    mom_win_azm := (s1.mom_win_azm_req).getD s1.mom_win_azm,
    mom_win_cur := (s1.mom_win_cur_req).getD s1.mom_win_cur }
  { s2 with
    mom_win_azm := min (max s2.mom_win_azm s2.mom_min_sel_azm) s2.n_azm,
    mom_win_cur := min (max s2.mom_win_cur s2.mom_min_sel_cur) s2.n_vel }

/-- The selection part of `auto_mom_sel`, continuing
`auto_mom_sel_clamp`: run the azimuth and per-datum selections, emit
`chng_mom_sel_all`, and validate. -/
def auto_mom_sel_pre (s : Core) : Core :=
  let s4 := auto_mom_sel_cur (auto_mom_sel_azm (auto_mom_sel_clamp s))
  let s5 := { s4 with emits := s4.emits ++ [Sig.chng_mom_sel_all] }
  vldt_mom_sel s5

/-- `anls_mom` (lines 1686–1722 plus the tail): reset the moments results,
auto-select if the selection arrays are `None`, and abort with a
`norun` message and a `chng_mom_res` signal when no spectrum is loaded or
too few directions are selected.  The moments computation past the guard
(lines 1724–2050) is the parameter `momCalc`, applied to the state after
the `begin` message is emitted. -/
def anls_mom (momCalc : Core → Core) (s : Core) : Core :=
  let s0 := rset_mom_res s
  let s1 := if s0.mom_sel_init then s0 else auto_mom_sel_pre s0
  if s1.time_epc = none ∨ s1.n_vel = 0 ∨
      s1.mom_n_sel_azm < s1.mom_min_sel_azm then
    { s1 with emits := s1.emits ++
        [Sig.mesg "core" "norun" "mom", Sig.chng_mom_res] }
  else
    momCalc { s1 with emits := s1.emits ++ [Sig.mesg "core" "begin" "mom"] }

/-- `auto_mom_sel` with no `win_???` keywords (lines 1291–1399): the
selection pipeline, then `anls_mom` unless `no_anls_mom` was requested. -/
def auto_mom_sel (momCalc : Core → Core) (no_anls_mom : Bool)
    (s : Core) : Core :=
  let s1 := auto_mom_sel_pre s
  if no_anls_mom then s1 else anls_mom momCalc s1

/-! ## `chng_dsp`, `chng_dyn` and the manual toggles -/

/-- `chng_dsp` (lines 3185–3209). -/
def chng_dsp (value : String) (s : Core) : Core :=
  if s.dsp = some value then s
  else if value = "mom" ∨ value = "gsl" ∨ value = "nln" then
    { s with dsp := some value, emits := s.emits ++ [Sig.chng_dsp] }
  else
    { s with dsp := none, emits := s.emits ++ [Sig.chng_dsp] }

/-- The tail of `chng_dyn` after a flag actually changed (lines
3257–3302): emit `chng_dyn`, then re-run the stage when the flag was
switched on with `rerun` — the stage dispatch itself is the parameter
`rerunK`. -/
def chng_dyn_run (rerunK : String → Core → Core) (anal : String)
    (value rerun : Bool) (s1 : Core) : Core :=
  let s2 := { s1 with emits := s1.emits ++ [Sig.chng_dyn] }
  if value && rerun then rerunK anal s2 else s2

/-- `chng_dyn` (lines 3215–3302): update the flag named by `anal`,
returning unchanged (without emitting) when the flag already has the
requested value or the name is unknown.  Every call the claims are about
passes `rerun=False` or `value=False`, so `rerunK` is never invoked
there. -/
def chng_dyn (rerunK : String → Core → Core) (anal : String)
    (value rerun : Bool) (s : Core) : Core :=
  if anal = "mom" then
    (if s.dyn_mom != value then
      chng_dyn_run rerunK anal value rerun { s with dyn_mom := value }
     else s)
  else if anal = "gss" then
    (if s.dyn_gss != value then
      chng_dyn_run rerunK anal value rerun { s with dyn_gss := value }
     else s)
  else if anal = "sel" then
    (if s.dyn_sel != value then
      chng_dyn_run rerunK anal value rerun { s with dyn_sel := value }
     else s)
  else if anal = "nln" then
    (if s.dyn_nln != value then
      chng_dyn_run rerunK anal value rerun { s with dyn_nln := value }
     else s)
  else s

/-- `chng_mom_sel` (lines 1573–1605): toggle one datum, emit
`chng_mom_sel_cur`, validate, force the moments analysis into dynamic mode
(`chng_dyn( 'mom', True, rerun=False )`), and re-run `anls_mom`. -/
def chng_mom_sel (rerunK : String → Core → Core) (momCalc : Core → Core)
    (t p v : Nat) (s : Core) : Core :=
  let s1 := { s with mom_sel_cur := fun t' p' v' =>
    (if t' = t ∧ p' = p ∧ v' = v then !s.mom_sel_cur t p v
     else s.mom_sel_cur t' p' v') }
  let s2 := { s1 with emits := s1.emits ++ [Sig.chng_mom_sel_cur t p v] }
  let s3 := vldt_mom_sel s2
  let s4 := chng_dyn rerunK "mom" true false s3
  anls_mom momCalc s4

/-! ## The non-linear analysis (`anls_nln`, lines 2973–3179) -/

/-- `anls_nln`.  The scipy call `curve_fit( model, x, y, gss, sigma )`
together with `sigma = sqrt( diag( covar ) )` is the parameter `fitres`: a
raised error anywhere inside the `try` block is `none`, a successful fit is
`some ( fit, covar )`.  The success path past the `try` (lines 3058–3179:
modeled currents, result record, append to the results log, `end` message,
`chng_nln_res`) is the parameter `k`. -/
def anls_nln (fitres : Option (List ℚ × List (List ℚ)))
    (k : List ℚ × List (List ℚ) → Core → Core) (s : Core) : Core :=
  let s0 := rset_nln_res s
  let pop := s0.nln_gss_pop
  let gss := s0.nln_gss_prm
  if s0.n_vel = 0 ∨ s0.n_mfi = 0 ∨ pop = [] ∨ ¬ 0 ∈ pop ∨ gss = [] ∨
      s0.nln_n_sel < s0.nln_min_sel then
    { s0 with emits := s0.emits ++
        [Sig.mesg "core" "norun" "nln", Sig.chng_nln_res] }
  else
    let s1 := { s0 with emits := s0.emits ++ [Sig.mesg "core" "begin" "nln"] }
    let s2 := { s1 with nln_res_sel := some s1.nln_sel }
    match fitres with
    | none =>
        let s3 := { s2 with emits := s2.emits ++ [Sig.mesg "core" "fail" "nln"] }
        let s4 := rset_nln_res s3
        { s4 with emits := s4.emits ++ [Sig.chng_nln_res] }
    | some fc => k fc s2

/-- `prop_nln_sel` (lines 2820–2842): refresh the selected-data count, emit
the appropriate selection-changed signal, then either run `anls_nln` (if
`dyn_nln`) or make sure the guess/selection view is displayed. -/
def prop_nln_sel (fitres : Option (List ℚ × List (List ℚ)))
    (k : List ℚ × List (List ℚ) → Core → Core)
    (pnt : Option (Nat × Nat × Nat)) (s : Core) : Core :=
  let s1 := { s with nln_n_sel := count3 s.n_alt s.n_azm s.n_vel s.nln_sel }
  let s2 := { s1 with emits := s1.emits ++
    [match pnt with
     | none => Sig.chng_nln_sel_all
     | some q => Sig.chng_nln_sel_cur q.1 q.2.1 q.2.2] }
  if s2.dyn_nln then anls_nln fitres k s2 else chng_dsp "gsl" s2

/-- `chng_nln_sel` (lines 2792–2814): disable dynamic point selection
(`chng_dyn( 'sel', False, rerun=False )`), create the selection array if
it is still `None`, toggle the requested point, and propagate. -/
def chng_nln_sel (rerunK : String → Core → Core)
    (fitres : Option (List ℚ × List (List ℚ)))
    (k : List ℚ × List (List ℚ) → Core → Core)
    (t p v : Nat) (s : Core) : Core :=
  let s1 := chng_dyn rerunK "sel" false false s
  let s2 := if s1.nln_sel_init then s1
            else { s1 with nln_sel_init := true,
                           nln_sel := fun _ _ _ => false }
  let s3 := { s2 with nln_sel := fun t' p' v' =>
    (if t' = t ∧ p' = p ∧ v' = v then !s2.nln_sel t p v
     else s2.nln_sel t' p' v') }
  prop_nln_sel fitres k (some (t, p, v)) s3

/-! ## The validity mask built by `load_spec` (lines 760–802) -/

/-- One entry of `cur_vld` for a single look direction's current profile
`cur : Nat → ℚ` (lines 766–801).  Control flow preserved from the source:

* `if ( n_vel < 2 ) : continue` leaves the whole row at its `tile( True )`
  initialization;
* a current below `cur_min` is invalid;
* the first bin is invalid when it exceeds `cur_jmp` times its successor,
  the last when it exceeds `cur_jmp` times its predecessor;
* the final two-sided test compares against `cur[v-1]` and `cur[v+1]`.
  In Python, for `v = 0` the index `v-1` wraps to the last element (modelled
  by the inner `if`), and for `v = n_vel - 1` the `and` short-circuits
  before the out-of-range `cur[v+1]` is read because its first conjunct is
  exactly the edge test that already failed; the total model reads the
  (irrelevant) value instead. -/
def cur_vld_code (n_vel : Nat) (cur : Nat → ℚ) (cur_min cur_jmp : ℚ)
    (v : Nat) : Bool :=
  if n_vel < 2 then true
  else if cur v < cur_min then false
  else if v = 0 ∧ cur_jmp * cur (v + 1) < cur v then false
  else if v = n_vel - 1 ∧ cur_jmp * cur (v - 1) < cur v then false
  else if cur_jmp * cur (if v = 0 then n_vel - 1 else v - 1) < cur v ∧
          cur_jmp * cur (v + 1) < cur v then false
  else true

/-- The full `cur_vld` mask (`tile( True, ... )` then the loops of lines
766–801). -/
def load_cur_vld (s : Core) : Mask3 :=
  fun t p v => cur_vld_code s.n_vel (s.cur t p) s.cur_min s.cur_jmp v

/-- The claim's reading of the validity rule: below the floor is always
invalid (for every `n_vel ≥ 1`); otherwise an edge bin is invalid exactly
when it exceeds `cur_jmp` times its single neighbor, and an interior bin
exactly when it exceeds `cur_jmp` times both neighbors. -/
def cur_vld_claim (n_vel : Nat) (cur : Nat → ℚ) (cur_min cur_jmp : ℚ)
    (v : Nat) : Bool :=
  if cur v < cur_min then false
  else if n_vel = 1 then true
  else if v = 0 then (if cur_jmp * cur 1 < cur 0 then false else true)
  else if v = n_vel - 1 then
    (if cur_jmp * cur (v - 1) < cur v then false else true)
  else if cur_jmp * cur (v - 1) < cur v ∧ cur_jmp * cur (v + 1) < cur v then
    false
  else true

/-! ## The `n_vel` truncation of `load_spec` (lines 704–735) -/

/-- The `while` loop of lines 715–724, with `m = min( len( cup1_c_vel ),
len( cup2_c_vel ) )`; the fuel argument starts at `m` and bounds the number
of remaining iterations (the loop counter only moves up by one). -/
def find_n_vel_go (m : Nat) (c1 c2 : Nat → ℚ) : Nat → Nat → Nat
  | 0, n => n
  | fuel + 1, n =>
      if n < m then
        if c1 n < c1 (n - 1) ∨ c2 n < c2 (n - 1) then n
        else find_n_vel_go m c1 c2 fuel (n + 1)
      else n

/-- `n_vel` as computed by `load_spec` (lines 715–724): starting from `1`,
advance while both cups' bin-center sequences have not strictly decreased. -/
def find_n_vel (len1 len2 : Nat) (c1 c2 : Nat → ℚ) : Nat :=
  find_n_vel_go (min len1 len2) c1 c2 (min len1 len2) 1

/-- The truncation `arr[0:n_vel]` of lines 729–735. -/
def truncate_vel (n_vel : Nat) (l : List ℚ) : List ℚ :=
  l.take n_vel

/-- The claim's reading of the truncation index: the first index `k ≥ 1`
at which the bin-center sequence is "non-increasing", i.e. the element is
not larger than its predecessor (`c k ≤ c (k-1)`), or the array length if
the sequence keeps increasing. -/
def first_noninc (m : Nat) (c : Nat → ℚ) : Nat :=
  (((List.range m).filter (fun k => decide (1 ≤ k) && decide (c k ≤ c (k - 1)))).head?).getD m

/-! ## The effective thermal speed along a look direction -/

/-- The thermal-speed projection of the forward model `calc_cur_bmx`
(lines 1234–1241): `dmg_dlk` is the dot product of the unit magnetic-field
direction with the unit look direction, i.e. the cosine of the angle
between them, and
`prm_w = sqrt( ( 1 - dmg_dlk² ) w_per² + dmg_dlk² w_par² )`. -/
noncomputable def calc_cur_bmx_w (dmg_dlk w_per w_par : ℝ) : ℝ :=
  Real.sqrt ((1 - dmg_dlk ^ 2) * w_per ^ 2 + dmg_dlk ^ 2 * w_par ^ 2)

/-- The effective thermal speed computed by `auto_nln_sel`
(lines 2751–2757): `ang = abs( dot( dlk, mfi_avg_nrm ) )` — the absolute
value of the same cosine — and
`w = sqrt( ( w_per sin( ang ) )² + ( w_par cos( ang ) )² )`. -/
noncomputable def auto_nln_sel_w (dlk_dot_nrm w_per w_par : ℝ) : ℝ :=
  let ang := |dlk_dot_nrm|
  Real.sqrt ((w_per * Real.sin ang) ^ 2 + (w_par * Real.cos ang) ^ 2)

/-! ## Concrete states for witnesses and counterexamples -/

/-- A `core` state with the constant settings of `init_var` / `rset_var`
(`mom_min_sel_azm = 5`, `mom_min_sel_cur = 3`, window requests `7`,
`cur_min = 1.`, `cur_jmp = 100.`, `nln_min_sel = 30`, dynamic flags at
their defaults) and no spectrum loaded. -/
def core0 : Core where
  time_epc := none
  n_alt := 0
  n_azm := 0
  n_vel := 0
  cur := fun _ _ _ => 0
  cur_vld := fun _ _ _ => false
  cur_min := 1
  cur_jmp := 100
  mom_win_azm := 7
  mom_win_cur := 7
  mom_win_azm_req := some 7
  mom_win_cur_req := some 7
  mom_min_sel_azm := 5
  mom_min_sel_cur := 3
  mom_sel_init := false
  mom_sel_azm := fun _ _ => false
  mom_sel_cur := fun _ _ _ => false
  mom_n_sel_azm := 0
  mom_n_sel_cur := fun _ _ => 0
  mom_res := MomRes.empty
  n_mfi := 0
  nln_gss_pop := []
  nln_gss_prm := []
  nln_sel_init := false
  nln_sel := fun _ _ _ => false
  nln_n_sel := 0
  nln_min_sel := 30
  nln_res_plas := Plas.new false
  nln_res_sel := none
  nln_res_cur_tot := none
  nln_res_cur_ion := none
  series := []
  dsp := some "mom"
  dyn_mom := true
  dyn_gss := true
  dyn_sel := true
  dyn_nln := false
  emits := []

/-! ## Statement-support definitions -/

/-- The consistency invariant of the moments selection that
`vldt_mom_sel` is meant to establish: a direction is selected only if
enough of its bins are, and if fewer than `mom_min_sel_azm` directions
have enough selected bins then everything is deselected and the counter
is zero. -/
def mom_sel_invariant (s : Core) : Prop :=
  (∀ t, t < s.n_alt → ∀ p, p < s.n_azm → s.mom_sel_azm t p = true →
    s.mom_min_sel_cur ≤ s.mom_n_sel_cur t p) ∧
  (count2 s.n_alt s.n_azm
      (fun t p => decide (s.mom_min_sel_cur ≤ s.mom_n_sel_cur t p)) <
        s.mom_min_sel_azm →
    (∀ t p, s.mom_sel_azm t p = false) ∧ s.mom_n_sel_azm = 0)

/-- Agreement of two states on every field the moments-selection invariant
reads. -/
def mom_sel_eq (a b : Core) : Prop :=
  a.n_alt = b.n_alt ∧ a.n_azm = b.n_azm ∧
  a.mom_min_sel_azm = b.mom_min_sel_azm ∧
  a.mom_min_sel_cur = b.mom_min_sel_cur ∧
  a.mom_sel_azm = b.mom_sel_azm ∧ a.mom_sel_cur = b.mom_sel_cur ∧
  a.mom_n_sel_azm = b.mom_n_sel_azm ∧ a.mom_n_sel_cur = b.mom_n_sel_cur

/-- `f` never writes the moments-selection fields.  This is the (checkable)
property of the moments computation past the guard of `anls_mom`
(lines 1724–2050 only assign `mom_*` result fields and then dispatch to
`auto_nln_gss` / `chng_dsp`, none of which assign `mom_sel_*` or
`mom_n_sel_*`). -/
def preserves_mom_sel (f : Core → Core) : Prop :=
  ∀ c, mom_sel_eq (f c) c

/-- The current profile used to exhibit the skipped last window of
`auto_mom_sel_cur`: four bins with all the signal in the last one. -/
def cur_c5 : Nat → ℚ := fun v => if v = 3 then 10 else 0

/-- A loaded state with one altitude row, one azimuth, four velocity bins,
`mom_win_cur = 2`, everything valid, direction `(0,0)` selected, and the
`cur_c5` profile. -/
def core5 : Core :=
  { core0 with
      time_epc := some 0, n_alt := 1, n_azm := 1, n_vel := 4,
      mom_win_cur := 2,
      cur := fun _ _ v => cur_c5 v,
      cur_vld := fun _ _ _ => true,
      mom_sel_init := true,
      mom_sel_azm := fun t p => decide (t = 0) && decide (p = 0) }

/-- A state passing every precondition of the non-linear fit, used to
witness the failure-path theorem. -/
def core6 : Core :=
  { core0 with
      time_epc := some 0, n_vel := 1, n_mfi := 1,
      nln_gss_pop := [0], nln_gss_prm := [1],
      nln_sel_init := true, nln_n_sel := 30,
      series := [Plas.new true] }

/-- A state with populated (empty) selection arrays and no spectrum
loaded, used to witness the `anls_mom` no-run theorem. -/
def core7 : Core :=
  { core0 with mom_sel_init := true }

/-- A state with the moments dynamic flag off, used to show that the manual
moments toggle switches it on (not off). -/
def core9 : Core :=
  { core0 with mom_sel_init := true, nln_sel_init := true,
               dyn_mom := false, dyn_sel := true }

/-- A loaded 1 × 5 × 3 state on which the automatic selection keeps all
five directions, used to witness the window-shape theorem. -/
def core10 : Core :=
  { core0 with
      time_epc := some 0, n_alt := 1, n_azm := 5, n_vel := 3,
      cur := fun _ _ v => (v : ℚ) + 1,
      cur_vld := fun _ _ _ => true }

/-- The bin-center profile `1, 1, 2, ...`: its first non-increasing entry
is at index `1` (equal to its predecessor), but no entry is strictly
smaller than its predecessor. -/
def c_vel_c4 : Nat → ℚ := fun n => if n = 0 then 1 else if n = 1 then 1 else 2

/-- A constant current profile used by the `cur_vld` witnesses. -/
def cur_c3 : Nat → ℚ := fun _ => 1

/-- A loaded spectrum with a single velocity bin whose current `0` lies
below the floor `cur_min = 1`. -/
def core3 : Core :=
  { core0 with time_epc := some 0, n_alt := 1, n_azm := 1, n_vel := 1,
               cur := fun _ _ _ => 0 }

/-! ## C8: the effective thermal speed used by the fit selection -/

/-- C8.  The claim is that `auto_nln_sel` projects the thermal speed
exactly as the forward model `calc_cur_bmx` does.  It does not: the code
takes `ang = abs( dot( dlk, mfi_avg_nrm ) )` — the *cosine* of the angle
between look direction and field direction — and then evaluates
`sin( ang )` / `cos( ang )` as if `ang` were the angle itself.  At a look
direction perpendicular to the field (dot product `0`, `w_per = 1`,
`w_par = 2`) the selection code returns `w_par = 2` while the forward
model's projection returns `w_per = 1`. -/
theorem auto_nln_sel_w_mismatch :
    auto_nln_sel_w 0 1 2 = 2 ∧ calc_cur_bmx_w 0 1 2 = 1 ∧
    auto_nln_sel_w 0 1 2 ≠ calc_cur_bmx_w 0 1 2 := by
  have h1 : auto_nln_sel_w 0 1 2 = 2 := by
    simp only [auto_nln_sel_w, abs_zero, Real.sin_zero, Real.cos_zero]
    rw [show ((1 : ℝ) * 0) ^ 2 + ((2 : ℝ) * 1) ^ 2 = 2 ^ 2 by norm_num]
    exact Real.sqrt_sq (by norm_num)
  have h2 : calc_cur_bmx_w 0 1 2 = 1 := by
    unfold calc_cur_bmx_w
    rw [show ((1 : ℝ) - 0 ^ 2) * 1 ^ 2 + 0 ^ 2 * 2 ^ 2 = 1 by norm_num]
    exact Real.sqrt_one
  refine ⟨h1, h2, ?_⟩
  rw [h1, h2]
  norm_num

/-! ## C5: the window search of `auto_mom_sel_cur` -/

/-- C5.  The loop `for v in range( self.n_vel - self.mom_win_cur )` never
examines the span starting at `n_vel - mom_win_cur`.  On `core5`
(`n_vel = 4`, `mom_win_cur = 2`, all bins valid, currents `0,0,0,10`) the
span starting at `2` has summed current `10` — the unique maximum over the
spans inside `[0, n_vel)` — yet the code examines only the spans starting
at `0` and `1` (both summing to `0`) and selects bins `0` and `1`. -/
theorem auto_mom_sel_cur_skips_last_window :
    mom_best_v0 4 2 (core5.cur 0 0) (core5.cur_vld 0 0) = 0 ∧
    mom_win_sum 4 2 (core5.cur 0 0) (core5.cur_vld 0 0) 0 = 0 ∧
    mom_win_sum 4 2 (core5.cur 0 0) (core5.cur_vld 0 0) 1 = 0 ∧
    mom_win_sum 4 2 (core5.cur 0 0) (core5.cur_vld 0 0) 2 = 10 ∧
    (auto_mom_sel_cur core5).mom_sel_cur 0 0 0 = true ∧
    (auto_mom_sel_cur core5).mom_sel_cur 0 0 1 = true ∧
    (auto_mom_sel_cur core5).mom_sel_cur 0 0 2 = false ∧
    (auto_mom_sel_cur core5).mom_sel_cur 0 0 3 = false := by
  refine ⟨?_, ?_, ?_, ?_, ?_, ?_, ?_, ?_⟩ <;> with_unfolding_all rfl

/-! ## C3: the validity mask near `n_vel < 2` -/

/-- C3 (counterexample).  With a single velocity bin (`n_vel = 1`) whose
current `0` lies below the floor `cur_min = 1`, the claim says the bin is
invalid, but `load_spec`'s flagging loop runs `continue` whenever
`n_vel < 2` and leaves the whole mask at its `tile( True )`
initialization. -/
theorem cur_vld_single_bin_counterexample :
    load_cur_vld core3 0 0 0 = true ∧
    cur_vld_claim core3.n_vel (core3.cur 0 0) core3.cur_min core3.cur_jmp
      0 = false ∧
    core3.cur 0 0 0 < core3.cur_min := by
  refine ⟨?_, ?_, ?_⟩
  · with_unfolding_all rfl
  · with_unfolding_all rfl
  · show (0 : ℚ) < 1
    norm_num

/-- C3 (amended).  For every spectrum with `n_vel ≥ 2` the mask is exactly
the claimed floor/spike rule, and for `n_vel < 2` every bin is marked
valid no matter its current. -/
theorem cur_vld_code_matches_claim (n_vel : Nat) (cur : Nat → ℚ)
    (cmin cjmp : ℚ) :
    (2 ≤ n_vel → ∀ v, v < n_vel →
      cur_vld_code n_vel cur cmin cjmp v =
        cur_vld_claim n_vel cur cmin cjmp v) ∧
    (n_vel < 2 → ∀ v, cur_vld_code n_vel cur cmin cjmp v = true) := by
  constructor
  · intro h2 v _
    have hn : ¬ n_vel < 2 := by omega
    have hne1 : ¬ n_vel = 1 := by omega
    by_cases hc : cur v < cmin
    · simp [cur_vld_code, cur_vld_claim, hn, hc]
    · by_cases hv0 : v = 0
      · subst hv0
        have hvl : ¬ ((0 : Nat) = n_vel - 1) := by omega
        by_cases hA : cjmp * cur 1 < cur 0
        · simp [cur_vld_code, cur_vld_claim, hn, hc, hne1, hA]
        · simp [cur_vld_code, cur_vld_claim, hn, hc, hne1, hA, hvl]
      · by_cases hvl : v = n_vel - 1
        · by_cases hB : cjmp * cur (v - 1) < cur v
          · have hcode : cur_vld_code n_vel cur cmin cjmp v = false := by
              unfold cur_vld_code
              rw [if_neg hn, if_neg hc, if_neg (fun h => hv0 h.1),
                  if_pos ⟨hvl, hB⟩]
            have hclaim : cur_vld_claim n_vel cur cmin cjmp v = false := by
              unfold cur_vld_claim
              rw [if_neg hc, if_neg hne1, if_neg hv0, if_pos hvl, if_pos hB]
            rw [hcode, hclaim]
          · have hC : ¬ (cjmp * cur (if v = 0 then n_vel - 1 else v - 1) <
                cur v ∧ cjmp * cur (v + 1) < cur v) := by
              intro hq
              apply hB
              have hq1 := hq.1
              rwa [if_neg hv0] at hq1
            have hcode : cur_vld_code n_vel cur cmin cjmp v = true := by
              unfold cur_vld_code
              rw [if_neg hn, if_neg hc, if_neg (fun h => hv0 h.1),
                  if_neg (fun h => hB h.2), if_neg hC]
            have hclaim : cur_vld_claim n_vel cur cmin cjmp v = true := by
              unfold cur_vld_claim
              rw [if_neg hc, if_neg hne1, if_neg hv0, if_pos hvl, if_neg hB]
            rw [hcode, hclaim]
        · simp [cur_vld_code, cur_vld_claim, hn, hc, hne1, hv0, hvl]
  · intro h v
    simp [cur_vld_code, h]

/-- Witness for the amended C3 theorem at `n_vel = 2` (edge bins agree with
the claim) and `n_vel = 1` (everything valid). -/
theorem cur_vld_code_matches_claim_witness :
    cur_vld_code 2 cur_c3 1 100 0 = cur_vld_claim 2 cur_c3 1 100 0 ∧
    cur_vld_code 1 cur_c3 1 100 0 = true :=
  ⟨(cur_vld_code_matches_claim 2 cur_c3 1 100).1 (by norm_num) 0
      (by norm_num),
   (cur_vld_code_matches_claim 1 cur_c3 1 100).2 (by norm_num) 0⟩

/-! ## C4: the monotonic truncation of `load_spec` -/

/-- C4 (counterexample).  On the bin-center profile `1, 1, 2` (both cups)
the first non-increasing value — an element not larger than its
predecessor — occurs at index `1`, but the loader's loop only breaks on a
*strict* decrease (`c[k] < c[k-1]`), so it keeps all `3` bins instead of
the claimed `1`. -/
theorem find_n_vel_counterexample :
    find_n_vel 3 3 c_vel_c4 c_vel_c4 = 3 ∧ first_noninc 3 c_vel_c4 = 1 := by
  constructor
  · with_unfolding_all rfl
  · with_unfolding_all rfl

/-- Invariant of the `while` loop of lines 715–724: starting the scan at
`n` (with everything before `n` known non-decreasing), the loop stops at
the first strict decrease in either cup, or at `m = min` of the two array
lengths. -/
theorem find_n_vel_go_spec (m : Nat) (c1 c2 : Nat → ℚ) :
    ∀ fuel n, 1 ≤ n → n ≤ m → m ≤ n + fuel →
      (∀ i, 1 ≤ i → i < n → ¬(c1 i < c1 (i - 1) ∨ c2 i < c2 (i - 1))) →
      1 ≤ find_n_vel_go m c1 c2 fuel n ∧
      find_n_vel_go m c1 c2 fuel n ≤ m ∧
      (∀ i, 1 ≤ i → i < find_n_vel_go m c1 c2 fuel n →
        ¬(c1 i < c1 (i - 1) ∨ c2 i < c2 (i - 1))) ∧
      (find_n_vel_go m c1 c2 fuel n < m →
        (c1 (find_n_vel_go m c1 c2 fuel n) <
           c1 (find_n_vel_go m c1 c2 fuel n - 1) ∨
         c2 (find_n_vel_go m c1 c2 fuel n) <
           c2 (find_n_vel_go m c1 c2 fuel n - 1))) := by
  intro fuel
  induction fuel with
  | zero =>
      intro n h1 h2 h3 hprev
      simp only [find_n_vel_go]
      exact ⟨h1, h2, hprev, by omega⟩
  | succ fuel ih =>
      intro n h1 h2 h3 hprev
      simp only [find_n_vel_go]
      by_cases hnm : n < m
      · rw [if_pos hnm]
        by_cases hdec : c1 n < c1 (n - 1) ∨ c2 n < c2 (n - 1)
        · rw [if_pos hdec]
          exact ⟨h1, by omega, hprev, fun _ => hdec⟩
        · rw [if_neg hdec]
          refine ih (n + 1) (by omega) (by omega) (by omega) ?_
          intro i hi1 hi2
          by_cases hin : i = n
          · subst hin; exact hdec
          · exact hprev i hi1 (by omega)
      · rw [if_neg hnm]
        exact ⟨h1, h2, hprev, by omega⟩

/-- C4 (amended).  `load_spec` sets `n_vel` to the first index at which
either cup's bin-center sequence *strictly decreases* (an element equal to
its predecessor does not truncate), or to the full (common) array length
if there is no strict decrease, and the arrays are truncated to exactly
the first `n_vel` entries. -/
theorem find_n_vel_strict_decrease (len1 len2 : Nat) (c1 c2 : Nat → ℚ)
    (h : 1 ≤ min len1 len2) (l : List ℚ) :
    1 ≤ find_n_vel len1 len2 c1 c2 ∧
    find_n_vel len1 len2 c1 c2 ≤ min len1 len2 ∧
    (∀ i, 1 ≤ i → i < find_n_vel len1 len2 c1 c2 →
      ¬(c1 i < c1 (i - 1) ∨ c2 i < c2 (i - 1))) ∧
    (find_n_vel len1 len2 c1 c2 < min len1 len2 →
      (c1 (find_n_vel len1 len2 c1 c2) <
         c1 (find_n_vel len1 len2 c1 c2 - 1) ∨
       c2 (find_n_vel len1 len2 c1 c2) <
         c2 (find_n_vel len1 len2 c1 c2 - 1))) ∧
    (truncate_vel (find_n_vel len1 len2 c1 c2) l).length =
      min (find_n_vel len1 len2 c1 c2) l.length := by
  have hs := find_n_vel_go_spec (min len1 len2) c1 c2 (min len1 len2) 1
    (le_refl 1) h (by omega) (by intro i hi1 hi2; omega)
  exact ⟨hs.1, hs.2.1, hs.2.2.1, hs.2.2.2, List.length_take _ _⟩

/-- Witness for the amended C4 theorem on the `1, 1, 2` profile: the loop
keeps all three bins because the profile never strictly decreases. -/
theorem find_n_vel_strict_decrease_witness :
    1 ≤ find_n_vel 3 3 c_vel_c4 c_vel_c4 ∧
    find_n_vel 3 3 c_vel_c4 c_vel_c4 ≤ min 3 3 ∧
    (∀ i, 1 ≤ i → i < find_n_vel 3 3 c_vel_c4 c_vel_c4 →
      ¬(c_vel_c4 i < c_vel_c4 (i - 1) ∨ c_vel_c4 i < c_vel_c4 (i - 1))) ∧
    (find_n_vel 3 3 c_vel_c4 c_vel_c4 < min 3 3 →
      (c_vel_c4 (find_n_vel 3 3 c_vel_c4 c_vel_c4) <
         c_vel_c4 (find_n_vel 3 3 c_vel_c4 c_vel_c4 - 1) ∨
       c_vel_c4 (find_n_vel 3 3 c_vel_c4 c_vel_c4) <
         c_vel_c4 (find_n_vel 3 3 c_vel_c4 c_vel_c4 - 1))) ∧
    (truncate_vel (find_n_vel 3 3 c_vel_c4 c_vel_c4) [1, 1, 2]).length =
      min (find_n_vel 3 3 c_vel_c4 c_vel_c4) ([1, 1, 2] : List ℚ).length :=
  find_n_vel_strict_decrease 3 3 c_vel_c4 c_vel_c4 (by norm_num) [1, 1, 2]

/-! ## C2: idempotence of `vldt_mom_sel` -/

/-- Comparing a direction mask against itself yields no changed pairs. -/
theorem changed_pairs_self (na np : Nat) (f : Mask2) :
    changed_pairs na np f f = [] := by
  unfold changed_pairs
  induction List.range na with
  | nil => rfl
  | cons t l ih =>
      simp only [List.foldr_cons, ih, List.append_nil]
      simp [List.filter_eq_nil_iff]

/-- Validation rereads only `mom_sel_cur` (and the grid dimensions and
minima), none of which it writes, so a second run recomputes exactly the
same mask and counters. -/
theorem vldt_mom_sel_pointfix (s : Core) :
    vldt_mom_sel (vldt_mom_sel s) = vldt_mom_sel s := by
  have h : changed_pairs s.n_alt s.n_azm (vldt_new_azm s) (vldt_new_azm s) =
      [] := changed_pairs_self _ _ _
  calc vldt_mom_sel (vldt_mom_sel s)
      = { vldt_mom_sel s with
            emits := (vldt_mom_sel s).emits ++
              (changed_pairs s.n_alt s.n_azm (vldt_new_azm s)
                  (vldt_new_azm s)).map
                (fun q => Sig.chng_mom_sel_azm q.1 q.2) } := rfl
    _ = vldt_mom_sel s := by rw [h]; simp

/-- C2.  Running the moments-selection validation twice in a row with no
intervening edits leaves `mom_sel_azm`, `mom_n_sel_azm` and
`mom_n_sel_cur` exactly as they were after the first run, and the second
run emits nothing — in particular no per-direction
`chng_mom_sel_azm` signal. -/
theorem vldt_mom_sel_idempotent (s : Core) :
    (vldt_mom_sel (vldt_mom_sel s)).mom_sel_azm =
      (vldt_mom_sel s).mom_sel_azm ∧
    (vldt_mom_sel (vldt_mom_sel s)).mom_n_sel_azm =
      (vldt_mom_sel s).mom_n_sel_azm ∧
    (vldt_mom_sel (vldt_mom_sel s)).mom_n_sel_cur =
      (vldt_mom_sel s).mom_n_sel_cur ∧
    (vldt_mom_sel (vldt_mom_sel s)).emits = (vldt_mom_sel s).emits ∧
    vldt_mom_sel (vldt_mom_sel s) = vldt_mom_sel s := by
  have h := vldt_mom_sel_pointfix s
  exact ⟨by rw [h], by rw [h], by rw [h], by rw [h], h⟩

/-! ## C1: the invariant established by validation -/

/-- Transport of the selection invariant along agreement of the fields it
reads. -/
theorem mom_sel_eq_invariant (a b : Core) (h : mom_sel_eq a b)
    (hb : mom_sel_invariant b) : mom_sel_invariant a := by
  obtain ⟨h1, h2, h3, h4, h5, h6, h7, h8⟩ := h
  obtain ⟨hb1, hb2⟩ := hb
  constructor
  · intro t ht p hp hsel
    rw [h1] at ht
    rw [h2] at hp
    rw [h5] at hsel
    rw [h4, h8]
    exact hb1 t ht p hp hsel
  · intro hcnt
    rw [h1, h2, h3] at hcnt
    have hcnt' : count2 b.n_alt b.n_azm
        (fun t p => decide (b.mom_min_sel_cur ≤ b.mom_n_sel_cur t p)) <
          b.mom_min_sel_azm := by
      have he : (fun t p => decide (a.mom_min_sel_cur ≤ a.mom_n_sel_cur t p))
          = fun t p => decide (b.mom_min_sel_cur ≤ b.mom_n_sel_cur t p) := by
        funext t p
        rw [h4, h8]
      rwa [he] at hcnt
    obtain ⟨hc1, hc2⟩ := hb2 hcnt'
    constructor
    · intro t p
      rw [h5]
      exact hc1 t p
    · rw [h7]
      exact hc2

/-- The state produced by `vldt_mom_sel` satisfies the selection
invariant. -/
theorem vldt_mom_sel_invariant (s : Core) :
    mom_sel_invariant (vldt_mom_sel s) := by
  by_cases h : count2 s.n_alt s.n_azm (vldt_sel_azm s) < s.mom_min_sel_azm
  · constructor
    · intro t _ p _ hsel
      have : vldt_new_azm s t p = true := hsel
      rw [vldt_new_azm, if_pos h] at this
      exact absurd this (by simp)
    · intro _
      constructor
      · intro t p
        show vldt_new_azm s t p = false
        rw [vldt_new_azm, if_pos h]
      · show vldt_new_n s = 0
        rw [vldt_new_n, if_pos h]
  · constructor
    · intro t _ p _ hsel
      have hsel' : vldt_new_azm s t p = true := hsel
      rw [vldt_new_azm, if_neg h] at hsel'
      have := of_decide_eq_true hsel'
      exact this
    · intro hcnt
      exfalso
      apply h
      have he : (fun t p =>
          decide ((vldt_mom_sel s).mom_min_sel_cur ≤
            (vldt_mom_sel s).mom_n_sel_cur t p)) = vldt_sel_azm s := rfl
      rw [show (vldt_mom_sel s).n_alt = s.n_alt from rfl,
          show (vldt_mom_sel s).n_azm = s.n_azm from rfl, he] at hcnt
      rw [show (vldt_mom_sel s).mom_min_sel_azm = s.mom_min_sel_azm from rfl]
        at hcnt
      exact hcnt

/-- `chng_dyn` with `rerun=False` only touches a dynamic flag and the
emitted signals. -/
theorem chng_dyn_norerun_mom_sel_eq (rerunK : String → Core → Core)
    (anal : String) (value : Bool) (s : Core) :
    mom_sel_eq (chng_dyn rerunK anal value false s) s := by
  unfold chng_dyn chng_dyn_run
  simp only [Bool.and_false, Bool.false_eq_true, if_false]
  split_ifs <;> exact ⟨rfl, rfl, rfl, rfl, rfl, rfl, rfl, rfl⟩

/-- The state produced by the selection pipeline
(`auto_mom_sel` up to validation) satisfies the invariant: it ends with
`vldt_mom_sel`. -/
theorem auto_mom_sel_pre_invariant (s : Core) :
    mom_sel_invariant (auto_mom_sel_pre s) :=
  vldt_mom_sel_invariant _

/-- `anls_mom` preserves the selection invariant: its own writes leave the
selection fields alone, the automatic selection it may trigger ends in
validation, and the moments computation past the guard never writes the
selection fields. -/
theorem anls_mom_invariant (momCalc : Core → Core) (s : Core)
    (hcalc : preserves_mom_sel momCalc) (hs : mom_sel_invariant s) :
    mom_sel_invariant (anls_mom momCalc s) := by
  simp only [anls_mom]
  by_cases hinit : (rset_mom_res s).mom_sel_init = true
  · rw [if_pos hinit]
    have h1 : mom_sel_invariant (rset_mom_res s) :=
      mom_sel_eq_invariant _ _ ⟨rfl, rfl, rfl, rfl, rfl, rfl, rfl, rfl⟩ hs
    split
    · exact mom_sel_eq_invariant _ _
        ⟨rfl, rfl, rfl, rfl, rfl, rfl, rfl, rfl⟩ h1
    · exact mom_sel_eq_invariant _ _ (hcalc _)
        (mom_sel_eq_invariant _ _
          ⟨rfl, rfl, rfl, rfl, rfl, rfl, rfl, rfl⟩ h1)
  · rw [if_neg hinit]
    have h1 : mom_sel_invariant (auto_mom_sel_pre (rset_mom_res s)) :=
      auto_mom_sel_pre_invariant _
    split
    · exact mom_sel_eq_invariant _ _
        ⟨rfl, rfl, rfl, rfl, rfl, rfl, rfl, rfl⟩ h1
    · exact mom_sel_eq_invariant _ _ (hcalc _)
        (mom_sel_eq_invariant _ _
          ⟨rfl, rfl, rfl, rfl, rfl, rfl, rfl, rfl⟩ h1)

/-- C1.  After any run of `vldt_mom_sel`, a direction is selected only if
its selected-bin count meets `mom_min_sel_cur`, and if fewer than
`mom_min_sel_azm` directions meet that criterion then every entry of
`mom_sel_azm` is `False` and `mom_n_sel_azm` is `0`; the same holds at the
end of the automatic selection (`auto_mom_sel`) and of a manual per-bin
toggle (`chng_mom_sel`), both of which run the validation and afterwards
only re-run the moments computation, which never writes the selection
fields (hypothesis `hcalc`). -/
theorem mom_sel_invariant_after_validation (s : Core)
    (rerunK : String → Core → Core) (momCalc : Core → Core) (t p v : Nat)
    (hcalc : preserves_mom_sel momCalc) :
    mom_sel_invariant (vldt_mom_sel s) ∧
    mom_sel_invariant (chng_mom_sel rerunK momCalc t p v s) ∧
    mom_sel_invariant (auto_mom_sel momCalc false s) := by
  refine ⟨vldt_mom_sel_invariant s, ?_, ?_⟩
  · unfold chng_mom_sel
    apply anls_mom_invariant _ _ hcalc
    exact mom_sel_eq_invariant _ _ (chng_dyn_norerun_mom_sel_eq _ _ _ _)
      (vldt_mom_sel_invariant _)
  · unfold auto_mom_sel
    rw [if_neg (by simp : ¬ (false = true))]
    exact anls_mom_invariant _ _ hcalc (auto_mom_sel_pre_invariant s)

/-- Witness for C1 at the initial state with identity continuations. -/
theorem mom_sel_invariant_after_validation_witness :
    mom_sel_invariant (vldt_mom_sel core0) ∧
    mom_sel_invariant
      (chng_mom_sel (fun _ c => c) (fun c => c) 0 0 0 core0) ∧
    mom_sel_invariant (auto_mom_sel (fun c => c) false core0) :=
  mom_sel_invariant_after_validation core0 (fun _ c => c) (fun c => c) 0 0 0
    (fun _ => ⟨rfl, rfl, rfl, rfl, rfl, rfl, rfl, rfl⟩)

/-! ## C7: the no-run path of `anls_mom` -/

/-- C7.  When `anls_mom` is invoked with populated selection arrays and
either no spectrum loaded (`time_epc` is `None` or `n_vel = 0`) or fewer
selected directions than `mom_min_sel_azm`, it resets every
moments-result variable to its empty value, emits the `norun` message and
the `chng_mom_res` signal, and returns without running the moments
computation — the result state does not depend on it at all
(`momCalc` vs `momCalc'`). -/
theorem anls_mom_norun (s : Core) (momCalc momCalc' : Core → Core)
    (hinit : s.mom_sel_init = true)
    (h : s.time_epc = none ∨ s.n_vel = 0 ∨
      s.mom_n_sel_azm < s.mom_min_sel_azm) :
    (anls_mom momCalc s).mom_res = MomRes.empty ∧
    (anls_mom momCalc s).emits =
      s.emits ++ [Sig.mesg "core" "norun" "mom", Sig.chng_mom_res] ∧
    anls_mom momCalc s =
      { rset_mom_res s with emits :=
          s.emits ++ [Sig.mesg "core" "norun" "mom", Sig.chng_mom_res] } ∧
    anls_mom momCalc' s = anls_mom momCalc s := by
  have key : ∀ f : Core → Core, anls_mom f s =
      { rset_mom_res s with emits :=
          s.emits ++ [Sig.mesg "core" "norun" "mom", Sig.chng_mom_res] } := by
    intro f
    simp only [anls_mom]
    rw [if_pos (show (rset_mom_res s).mom_sel_init = true from hinit)]
    rw [if_pos (show (rset_mom_res s).time_epc = none ∨
      (rset_mom_res s).n_vel = 0 ∨
      (rset_mom_res s).mom_n_sel_azm < (rset_mom_res s).mom_min_sel_azm
      from h)]
    rfl
  exact ⟨by rw [key]; rfl, by rw [key], key momCalc,
    by rw [key momCalc', key momCalc]⟩

/-- Witness for C7: the initial state with populated (empty) selection
arrays and no spectrum requested. -/
theorem anls_mom_norun_witness :
    (anls_mom (fun c => c) core7).mom_res = MomRes.empty ∧
    (anls_mom (fun c => c) core7).emits =
      core7.emits ++ [Sig.mesg "core" "norun" "mom", Sig.chng_mom_res] ∧
    anls_mom (fun c => c) core7 =
      { rset_mom_res core7 with emits :=
          core7.emits ++
            [Sig.mesg "core" "norun" "mom", Sig.chng_mom_res] } ∧
    anls_mom (fun c => rset_nln_res c) core7 = anls_mom (fun c => c) core7 :=
  anls_mom_norun core7 (fun c => c) (fun c => rset_nln_res c) rfl
    (Or.inl rfl)

/-! ## C6: the failure path of `anls_nln` -/

/-- C6.  If the optimizer raises (modelled by `fitres = none`) after the
preconditions of the fit held, `anls_nln` leaves every fit-result variable
at its freshly-reset empty value (`nln_res_plas` a fresh
`plas( enforce=False )`, `nln_res_sel`, `nln_res_cur_tot`,
`nln_res_cur_ion` all `None`), emits the `fail` message followed by
`chng_nln_res`, appends nothing to the results log `series`, and its
result does not depend on the success continuation (`k` vs `k'`). -/
theorem anls_nln_failure_resets (s : Core)
    (k k' : List ℚ × List (List ℚ) → Core → Core)
    (h1 : s.n_vel ≠ 0) (h2 : s.n_mfi ≠ 0) (h3 : s.nln_gss_pop ≠ [])
    (h4 : 0 ∈ s.nln_gss_pop) (h5 : s.nln_gss_prm ≠ [])
    (h6 : s.nln_min_sel ≤ s.nln_n_sel) :
    (anls_nln none k s).nln_res_plas = Plas.new false ∧
    (anls_nln none k s).nln_res_sel = none ∧
    (anls_nln none k s).nln_res_cur_tot = none ∧
    (anls_nln none k s).nln_res_cur_ion = none ∧
    (anls_nln none k s).series = s.series ∧
    (anls_nln none k s).emits = s.emits ++
      [Sig.mesg "core" "begin" "nln", Sig.mesg "core" "fail" "nln",
       Sig.chng_nln_res] ∧
    anls_nln none k' s = anls_nln none k s := by
  have hg : ¬ ((rset_nln_res s).n_vel = 0 ∨ (rset_nln_res s).n_mfi = 0 ∨
      (rset_nln_res s).nln_gss_pop = [] ∨
      ¬ 0 ∈ (rset_nln_res s).nln_gss_pop ∨
      (rset_nln_res s).nln_gss_prm = [] ∨
      (rset_nln_res s).nln_n_sel < (rset_nln_res s).nln_min_sel) := by
    push_neg
    exact ⟨h1, h2, h3, h4, h5, h6⟩
  have key : ∀ f : List ℚ × List (List ℚ) → Core → Core,
      anls_nln none f s =
        { rset_nln_res s with emits :=
            ((s.emits ++ [Sig.mesg "core" "begin" "nln"]) ++
              [Sig.mesg "core" "fail" "nln"]) ++ [Sig.chng_nln_res] } := by
    intro f
    simp only [anls_nln]
    rw [if_neg hg]
    rfl
  refine ⟨by rw [key]; rfl, by rw [key]; rfl, by rw [key]; rfl,
    by rw [key]; rfl, by rw [key]; rfl, ?_, by rw [key k', key k]⟩
  rw [key]
  simp

/-- Witness for C6 on a state passing every fit precondition, with two
different success continuations. -/
theorem anls_nln_failure_resets_witness :
    (anls_nln none (fun _ c => c) core6).nln_res_plas = Plas.new false ∧
    (anls_nln none (fun _ c => c) core6).nln_res_sel = none ∧
    (anls_nln none (fun _ c => c) core6).nln_res_cur_tot = none ∧
    (anls_nln none (fun _ c => c) core6).nln_res_cur_ion = none ∧
    (anls_nln none (fun _ c => c) core6).series = core6.series ∧
    (anls_nln none (fun _ c => c) core6).emits = core6.emits ++
      [Sig.mesg "core" "begin" "nln", Sig.mesg "core" "fail" "nln",
       Sig.chng_nln_res] ∧
    anls_nln none (fun _ c => rset_mom_res c) core6 =
      anls_nln none (fun _ c => c) core6 :=
  anls_nln_failure_resets core6 (fun _ c => c) (fun _ c => rset_mom_res c)
    (by with_unfolding_all decide) (by with_unfolding_all decide)
    (by with_unfolding_all decide) (by with_unfolding_all decide)
    (by with_unfolding_all decide) (by with_unfolding_all decide)

/-! ## C9: dynamic flags after manual toggles -/

/-- C9 (counterexample).  Starting from a state whose moments dynamic flag
is off, a manual single-bin toggle of the moments selection turns the flag
*on*: `chng_mom_sel` calls `chng_dyn( 'mom', True, rerun=False )`
("Ensure that the moments analysis has been set for 'dynamic' mode"), the
opposite of the claimed disabling. -/
theorem chng_mom_sel_enables_dyn_mom :
    core9.dyn_mom = false ∧
    (chng_mom_sel (fun _ c => c) (fun c => c) 0 0 0 core9).dyn_mom
      = true := by
  constructor
  · rfl
  · with_unfolding_all rfl

/-- `vldt_mom_sel` does not touch the dynamic flags. -/
theorem vldt_mom_sel_dyn (s : Core) :
    (vldt_mom_sel s).dyn_mom = s.dyn_mom ∧
    (vldt_mom_sel s).dyn_sel = s.dyn_sel := ⟨rfl, rfl⟩

set_option maxHeartbeats 1000000 in
/-- The selection pipeline does not touch the dynamic flags. -/
theorem auto_mom_sel_pre_dyn (s : Core) :
    (auto_mom_sel_pre s).dyn_mom = s.dyn_mom ∧
    (auto_mom_sel_pre s).dyn_sel = s.dyn_sel := ⟨rfl, rfl⟩

set_option maxHeartbeats 1000000 in
/-- `anls_mom` leaves `dyn_mom` unchanged provided the moments computation
does. -/
theorem anls_mom_dyn_mom (momCalc : Core → Core)
    (hmom : ∀ c, (momCalc c).dyn_mom = c.dyn_mom) (s : Core) :
    (anls_mom momCalc s).dyn_mom = s.dyn_mom := by
  simp only [anls_mom]
  by_cases hinit : (rset_mom_res s).mom_sel_init = true
  · rw [if_pos hinit]
    split
    · rfl
    · rw [hmom]; rfl
  · rw [if_neg hinit]
    split
    · show (auto_mom_sel_pre (rset_mom_res s)).dyn_mom = s.dyn_mom
      rw [(auto_mom_sel_pre_dyn _).1]
      rfl
    · rw [hmom]
      show (auto_mom_sel_pre (rset_mom_res s)).dyn_mom = s.dyn_mom
      rw [(auto_mom_sel_pre_dyn _).1]
      rfl

/-- `chng_dyn( 'mom', True, rerun=False )` always leaves `dyn_mom = True`.
-/
theorem chng_dyn_mom_true (rerunK : String → Core → Core) (s : Core) :
    (chng_dyn rerunK "mom" true false s).dyn_mom = true := by
  unfold chng_dyn chng_dyn_run
  rw [if_pos (rfl : ("mom" : String) = "mom")]
  by_cases h : (s.dyn_mom != true) = true
  · rw [if_pos h]
    simp
  · rw [if_neg h]
    simpa using h

/-- `chng_dyn( 'sel', False, rerun=False )` always leaves
`dyn_sel = False`. -/
theorem chng_dyn_sel_false (rerunK : String → Core → Core) (s : Core) :
    (chng_dyn rerunK "sel" false false s).dyn_sel = false := by
  unfold chng_dyn chng_dyn_run
  rw [if_neg (by decide : ¬ ("sel" : String) = "mom"),
      if_neg (by decide : ¬ ("sel" : String) = "gss"),
      if_pos (rfl : ("sel" : String) = "sel")]
  by_cases h : (s.dyn_sel != false) = true
  · rw [if_pos h]
    simp
  · rw [if_neg h]
    simpa using h

/-- `chng_dsp` does not touch the dynamic flags. -/
theorem chng_dsp_dyn_sel (value : String) (s : Core) :
    (chng_dsp value s).dyn_sel = s.dyn_sel := by
  unfold chng_dsp
  split_ifs <;> rfl

/-- `anls_nln` leaves `dyn_sel` unchanged provided the success
continuation does. -/
theorem anls_nln_dyn_sel (fitres : Option (List ℚ × List (List ℚ)))
    (k : List ℚ × List (List ℚ) → Core → Core)
    (hk : ∀ fc c, (k fc c).dyn_sel = c.dyn_sel) (s : Core) :
    (anls_nln fitres k s).dyn_sel = s.dyn_sel := by
  simp only [anls_nln]
  split
  · rfl
  · cases fitres with
    | none => rfl
    | some fc => rw [hk]; rfl

/-- `prop_nln_sel` leaves `dyn_sel` unchanged provided the fit's success
continuation does. -/
theorem prop_nln_sel_dyn_sel (fitres : Option (List ℚ × List (List ℚ)))
    (k : List ℚ × List (List ℚ) → Core → Core)
    (hk : ∀ fc c, (k fc c).dyn_sel = c.dyn_sel)
    (pnt : Option (Nat × Nat × Nat)) (s : Core) :
    (prop_nln_sel fitres k pnt s).dyn_sel = s.dyn_sel := by
  simp only [prop_nln_sel]
  split
  · rw [anls_nln_dyn_sel fitres k hk]
  · rw [chng_dsp_dyn_sel]

/-- C9 (amended).  A manual single-bin toggle of the fit selection
(`chng_nln_sel`) does disable that stage's dynamic flag —
`dyn_sel = False` on return — but a manual single-bin toggle of the
moments selection (`chng_mom_sel`) *enables* the moments flag,
`dyn_mom = True` on return, before re-running the moments analysis once;
the hypotheses say only that the moments computation and the fit's
success continuation do not themselves write the flags. -/
theorem manual_toggle_dyn_flags (s : Core) (rerunK : String → Core → Core)
    (momCalc : Core → Core) (fitres : Option (List ℚ × List (List ℚ)))
    (k : List ℚ × List (List ℚ) → Core → Core) (t p v : Nat)
    (hmom : ∀ c, (momCalc c).dyn_mom = c.dyn_mom)
    (hk : ∀ fc c, (k fc c).dyn_sel = c.dyn_sel) :
    (chng_mom_sel rerunK momCalc t p v s).dyn_mom = true ∧
    (chng_nln_sel rerunK fitres k t p v s).dyn_sel = false := by
  constructor
  · simp only [chng_mom_sel]
    rw [anls_mom_dyn_mom momCalc hmom]
    exact chng_dyn_mom_true rerunK _
  · simp only [chng_nln_sel]
    rw [prop_nln_sel_dyn_sel fitres k hk]
    split
    · exact chng_dyn_sel_false rerunK s
    · exact chng_dyn_sel_false rerunK s

/-- Witness for the amended C9 theorem at `core9` with identity
continuations. -/
theorem manual_toggle_dyn_flags_witness :
    (chng_mom_sel (fun _ c => c) (fun c => c) 0 0 0 core9).dyn_mom
      = true ∧
    (chng_nln_sel (fun _ c => c) none (fun _ c => c) 0 0 0 core9).dyn_sel
      = false :=
  manual_toggle_dyn_flags core9 (fun _ c => c) (fun c => c) none
    (fun _ c => c) 0 0 0 (fun _ => rfl) (fun _ _ => rfl)

/-! ## C10: the shape of the automatically selected windows -/

/-- Extending the scanned range by one bin adds the new bin's flag. -/
theorem countP_succ (n : Nat) (f : Nat → Bool) :
    countP (n + 1) f = countP n f + (if f n = true then 1 else 0) := by
  unfold countP
  rw [List.range_succ, List.filter_append]
  by_cases h : f n = true <;> simp [List.filter, h]

/-- Counting the bins of a half-open index window inside `[0, n)`. -/
theorem countP_window (a b : Nat) :
    ∀ n, countP n (fun v => decide (a ≤ v) && decide (v < b)) =
      min b n - min a n := by
  intro n
  induction n with
  | zero => simp [countP]
  | succ n ih =>
      rw [countP_succ, ih]
      by_cases h1 : a ≤ n <;> by_cases h2 : n < b <;>
        simp [h1, h2] <;> omega

/-- `countP` only reads the flags inside the scanned range. -/
theorem countP_congr (n : Nat) (f g : Nat → Bool)
    (h : ∀ v, v < n → f v = g v) : countP n f = countP n g := by
  unfold countP
  rw [List.filter_congr]
  intro v hv
  exact h v (List.mem_range.mp hv)

/-- A positive count yields a flagged bin inside the range. -/
theorem countP_pos (n : Nat) (f : Nat → Bool) (h : 1 ≤ countP n f) :
    ∃ v, v < n ∧ f v = true := by
  have h0 : (List.range n).filter f ≠ [] := by
    intro hnil
    unfold countP at h
    rw [hnil] at h
    exact absurd h (by norm_num)
  obtain ⟨v, hv⟩ := List.exists_mem_of_ne_nil _ h0
  obtain ⟨hvr, hvf⟩ := List.mem_filter.mp hv
  exact ⟨v, List.mem_range.mp hvr, hvf⟩

/-- The running best of the span scan is either the initial index or one of
the scanned starts. -/
theorem foldl_best_mem (f : Nat → ℚ) (l : List Nat) :
    ∀ acc : Nat × ℚ,
      (l.foldl (fun acc v => if acc.2 < f v then (v, f v) else acc)
        acc).1 = acc.1 ∨
      (l.foldl (fun acc v => if acc.2 < f v then (v, f v) else acc)
        acc).1 ∈ l := by
  induction l with
  | nil => intro acc; exact Or.inl rfl
  | cons v l ih =>
      intro acc
      simp only [List.foldl_cons]
      by_cases hv : acc.2 < f v
      · rw [if_pos hv]
        rcases ih (v, f v) with h | h
        · exact Or.inr (by rw [h]; exact List.mem_cons_self v l)
        · exact Or.inr (List.mem_cons_of_mem v h)
      · rw [if_neg hv]
        rcases ih acc with h | h
        · exact Or.inl h
        · exact Or.inr (List.mem_cons_of_mem v h)

/-- If every scanned span sums to zero, the scan never moves off the
initial `( v_0, cur_0 ) = ( 0, 0. )`. -/
theorem foldl_best_zero (f : Nat → ℚ) (l : List Nat)
    (hf : ∀ v ∈ l, f v = 0) :
    (l.foldl (fun acc v => if acc.2 < f v then (v, f v) else acc)
      ((0 : Nat), (0 : ℚ))).1 = 0 := by
  induction l with
  | nil => rfl
  | cons v l ih =>
      simp only [List.foldl_cons]
      rw [hf v (List.mem_cons_self v l), if_neg (lt_irrefl (0 : ℚ))]
      exact ih (fun u hu => hf u (List.mem_cons_of_mem v hu))

/-- With no valid bin in the direction, every span sums to zero. -/
theorem mom_win_sum_zero (n_vel win : Nat) (cur : Nat → ℚ)
    (vld : Nat → Bool) (hvld : ∀ u, u < n_vel → vld u = false) (v : Nat) :
    mom_win_sum n_vel win cur vld v = 0 := by
  unfold mom_win_sum
  have h : (List.range n_vel).filter
      (fun u => decide (v ≤ u) && decide (u < v + win) && vld u) = [] := by
    rw [List.filter_eq_nil_iff]
    intro u hu
    simp [hvld u (List.mem_range.mp hu)]
  rw [h]
  rfl

/-- The selected span start stays inside the data: the scan only visits
starts in `range( n_vel - win )`, and defaults to `0`. -/
theorem mom_best_v0_le (n_vel win : Nat) (cur : Nat → ℚ) (vld : Nat → Bool)
    (hwin : win ≤ n_vel) :
    mom_best_v0 n_vel win cur vld + win ≤ n_vel := by
  have hrfl : mom_best_v0 n_vel win cur vld =
      ((List.range (n_vel - win)).foldl
        (fun acc v => if acc.2 < mom_win_sum n_vel win cur vld v
          then (v, mom_win_sum n_vel win cur vld v) else acc)
        ((0 : Nat), (0 : ℚ))).1 := rfl
  rcases foldl_best_mem (mom_win_sum n_vel win cur vld)
      (List.range (n_vel - win)) ((0 : Nat), (0 : ℚ)) with h | h
  · rw [hrfl, h]
    omega
  · rw [hrfl]
    have := List.mem_range.mp (hrfl ▸ h)
    omega

/-- The per-direction result of `auto_mom_sel_cur` on a selected direction:
the whole span `[v_0, v_0 + win)` is selected wholesale — `cur_vld` plays
no role in which bins are selected — the count is exactly the window
width, and with no valid bin in the direction the span starts at `0`. -/
theorem auto_mom_sel_cur_shape (c : Core) (t p : Nat)
    (hwin : c.mom_win_cur ≤ c.n_vel)
    (ht : t < c.n_alt) (hp : p < c.n_azm)
    (hazm : c.mom_sel_azm t p = true) :
    ∃ v0, v0 + c.mom_win_cur ≤ c.n_vel ∧
      (∀ v, (auto_mom_sel_cur c).mom_sel_cur t p v =
        (decide (v0 ≤ v) && decide (v < v0 + c.mom_win_cur))) ∧
      countP c.n_vel ((auto_mom_sel_cur c).mom_sel_cur t p) =
        c.mom_win_cur ∧
      ((∀ u, u < c.n_vel → c.cur_vld t p u = false) → v0 = 0) := by
  have hle := mom_best_v0_le c.n_vel c.mom_win_cur (c.cur t p)
    (c.cur_vld t p) hwin
  refine ⟨mom_best_v0 c.n_vel c.mom_win_cur (c.cur t p) (c.cur_vld t p),
    hle, ?_, ?_, ?_⟩
  · intro v
    show (decide (t < c.n_alt) && decide (p < c.n_azm) &&
        c.mom_sel_azm t p &&
        (decide (mom_best_v0 c.n_vel c.mom_win_cur (c.cur t p)
            (c.cur_vld t p) ≤ v) &&
         decide (v < mom_best_v0 c.n_vel c.mom_win_cur (c.cur t p)
            (c.cur_vld t p) + c.mom_win_cur) &&
         decide (v < c.n_vel))) = _
    by_cases h1 : mom_best_v0 c.n_vel c.mom_win_cur (c.cur t p)
        (c.cur_vld t p) ≤ v
    · by_cases h2 : v < mom_best_v0 c.n_vel c.mom_win_cur (c.cur t p)
          (c.cur_vld t p) + c.mom_win_cur
      · have h3 : v < c.n_vel := by omega
        simp [ht, hp, hazm, h1, h2, h3]
      · simp [ht, hp, hazm, h1, h2]
    · simp [ht, hp, hazm, h1]
  · have hcongr := countP_congr c.n_vel
      ((auto_mom_sel_cur c).mom_sel_cur t p)
      (fun v => decide (mom_best_v0 c.n_vel c.mom_win_cur (c.cur t p)
          (c.cur_vld t p) ≤ v) &&
        decide (v < mom_best_v0 c.n_vel c.mom_win_cur (c.cur t p)
          (c.cur_vld t p) + c.mom_win_cur))
      (fun v _ => by
        show (decide (t < c.n_alt) && decide (p < c.n_azm) &&
            c.mom_sel_azm t p && _) = _
        by_cases h1 : mom_best_v0 c.n_vel c.mom_win_cur (c.cur t p)
            (c.cur_vld t p) ≤ v
        · by_cases h2 : v < mom_best_v0 c.n_vel c.mom_win_cur (c.cur t p)
              (c.cur_vld t p) + c.mom_win_cur
          · have h3 : v < c.n_vel := by omega
            simp [ht, hp, hazm, h1, h2, h3]
          · simp [ht, hp, hazm, h1, h2]
        · simp [ht, hp, hazm, h1])
    rw [hcongr, countP_window]
    omega
  · intro hvld
    have hz : ∀ v ∈ List.range (c.n_vel - c.mom_win_cur),
        mom_win_sum c.n_vel c.mom_win_cur (c.cur t p) (c.cur_vld t p) v
          = 0 :=
      fun v _ => mom_win_sum_zero c.n_vel c.mom_win_cur (c.cur t p)
        (c.cur_vld t p) hvld v
    exact foldl_best_zero _ _ hz

set_option maxHeartbeats 1000000 in
/-- A direction still selected after validation of the automatic selection
carries a full window: validation keeps a direction only when its
selected-bin count is positive (given `mom_min_sel_cur ≥ 1`), which forces
the direction to have been azimuth-selected, so `auto_mom_sel_cur` wrote a
whole span there. -/
theorem vldt_after_auto_shape (c : Core) (hwin : c.mom_win_cur ≤ c.n_vel)
    (hmin : 1 ≤ c.mom_min_sel_cur) (t p : Nat)
    (hsel : vldt_new_azm (auto_mom_sel_cur c) t p = true) :
    ∃ v0, v0 + c.mom_win_cur ≤ c.n_vel ∧
      (∀ v, (auto_mom_sel_cur c).mom_sel_cur t p v =
        (decide (v0 ≤ v) && decide (v < v0 + c.mom_win_cur))) ∧
      countP c.n_vel ((auto_mom_sel_cur c).mom_sel_cur t p) =
        c.mom_win_cur ∧
      ((∀ u, u < c.n_vel → c.cur_vld t p u = false) → v0 = 0) := by
  unfold vldt_new_azm at hsel
  by_cases hbr : count2 (auto_mom_sel_cur c).n_alt
      (auto_mom_sel_cur c).n_azm (vldt_sel_azm (auto_mom_sel_cur c)) <
      (auto_mom_sel_cur c).mom_min_sel_azm
  · rw [if_pos hbr] at hsel
    exact absurd hsel (by simp)
  · rw [if_neg hbr] at hsel
    have hcnt : (auto_mom_sel_cur c).mom_min_sel_cur ≤
        vldt_n_sel_cur (auto_mom_sel_cur c) t p := of_decide_eq_true hsel
    have hcnt1 : 1 ≤ countP c.n_vel
        ((auto_mom_sel_cur c).mom_sel_cur t p) := le_trans hmin hcnt
    obtain ⟨v, hvn, hvt⟩ := countP_pos _ _ hcnt1
    have hvt' : (decide (t < c.n_alt) && decide (p < c.n_azm) &&
        c.mom_sel_azm t p &&
        (decide (mom_best_v0 c.n_vel c.mom_win_cur (c.cur t p)
            (c.cur_vld t p) ≤ v) &&
         decide (v < mom_best_v0 c.n_vel c.mom_win_cur (c.cur t p)
            (c.cur_vld t p) + c.mom_win_cur) &&
         decide (v < c.n_vel))) = true := hvt
    simp only [Bool.and_eq_true, decide_eq_true_eq] at hvt'
    exact auto_mom_sel_cur_shape c t p hwin hvt'.1.1.1 hvt'.1.1.2 hvt'.1.2

set_option maxHeartbeats 1000000 in
/-- C10.  After the automatic moments selection, every look direction
still selected carries exactly `mom_win_cur` contiguous selected bins —
the whole chosen span, including bins whose `cur_vld` flag is `False` —
and when the direction has no valid current at all the span starting at
bin `0` is selected; validity only enters the window ranking, never which
bins of the chosen span end up selected. -/
theorem auto_mom_sel_selects_whole_window (s : Core) (t p : Nat)
    (hmin : 1 ≤ s.mom_min_sel_cur)
    (hsel : (auto_mom_sel_pre s).mom_sel_azm t p = true) :
    ∃ v0,
      v0 + (auto_mom_sel_pre s).mom_win_cur ≤ (auto_mom_sel_pre s).n_vel ∧
      (∀ v, (auto_mom_sel_pre s).mom_sel_cur t p v =
        (decide (v0 ≤ v) &&
          decide (v < v0 + (auto_mom_sel_pre s).mom_win_cur))) ∧
      countP (auto_mom_sel_pre s).n_vel
          ((auto_mom_sel_pre s).mom_sel_cur t p) =
        (auto_mom_sel_pre s).mom_win_cur ∧
      ((∀ u, u < (auto_mom_sel_pre s).n_vel →
          (auto_mom_sel_pre s).cur_vld t p u = false) → v0 = 0) :=
  vldt_after_auto_shape (auto_mom_sel_azm (auto_mom_sel_clamp s))
    (min_le_right _ _) hmin t p hsel

/-- Witness for C10 on the loaded `1 × 5 × 3` state `core10`, whose five
directions all survive validation. -/
theorem auto_mom_sel_selects_whole_window_witness :
    ∃ v0,
      v0 + (auto_mom_sel_pre core10).mom_win_cur ≤
        (auto_mom_sel_pre core10).n_vel ∧
      (∀ v, (auto_mom_sel_pre core10).mom_sel_cur 0 0 v =
        (decide (v0 ≤ v) &&
          decide (v < v0 + (auto_mom_sel_pre core10).mom_win_cur))) ∧
      countP (auto_mom_sel_pre core10).n_vel
          ((auto_mom_sel_pre core10).mom_sel_cur 0 0) =
        (auto_mom_sel_pre core10).mom_win_cur ∧
      ((∀ u, u < (auto_mom_sel_pre core10).n_vel →
          (auto_mom_sel_pre core10).cur_vld 0 0 u = false) → v0 = 0) :=
  auto_mom_sel_selects_whole_window core10 0 0
    (by with_unfolding_all decide) (by with_unfolding_all rfl)

end Janus
